import Mathlib

/-!
Verification of the order-synchronization core of the Paradex market-maker
keeper (`market_maker_keeper/paradex_market_maker_keeper.py`).

The keeper's tick logic (`our_orders`, `our_buy_orders`, `our_sell_orders`,
`synchronize_orders`, `cancel_orders`, `create_orders`, `shutdown`) is embedded
shallowly below.  External collaborators (price feed, balance queries, the band
strategy, the 0x exchange gateway) are represented as function-valued fields of
an input record, and a tick is modelled as the list of observable events it
produces, in execution order.  Amounts are `Wad` fixed-point values, modelled
as integers; timestamps are integers.
-/

/-- An open 0x order as returned by the relayer API
(`get_orders_by_maker`): pay token/amount, buy token/amount and an
expiration timestamp.  Token addresses are modelled as naturals. -/
structure Order where
  payToken : ℕ
  payAmount : ℤ
  buyToken : ℕ
  buyAmount : ℤ
  expiration : ℤ
deriving DecidableEq, Repr

/-- A new-order intent produced by the band strategy
(`bands.new_orders`): a side flag and the pay/buy amounts. -/
structure OrderIntent where
  is_sell : Bool
  pay_amount : ℤ
  buy_amount : ℤ
deriving DecidableEq, Repr

/-- The keeper's configuration, from its command-line arguments:
the two token addresses of the configured pair, the minimum ETH balance,
the order staleness threshold used by `our_orders`, and the lifetime of
created orders (`--order-expiry`). -/
structure Config where
  buyToken : ℕ
  sellToken : ℕ
  minEthBalance : ℤ
  orderExpiryThreshold : ℤ
  orderExpiry : ℤ

/-- The external world as observed during one tick: the account's ETH
balance, the raw order list from the relayer, the current timestamp, the
unavailable (already taken) buy amount per order, the price feed value
(`none` when unavailable), per-token balances, and the band strategy's two
queries.  `newOrders` returns a pair; the keeper places its first component
(the source indexes the result with `[0]`). -/
structure TickInput where
  ethBalance : ℤ
  ourRawOrders : List Order
  now : ℤ
  unavailableBuyAmount : Order → ℤ
  targetPrice : Option ℤ
  balanceOf : ℕ → ℤ
  cancellable : List Order → List Order → ℤ → List Order
  newOrders : List Order → List Order → ℤ → ℤ → ℤ → List OrderIntent × ℤ

/-- Observable events of one tick of `synchronize_orders`, in execution
order: the external queries it makes and the cancel/create actions it
dispatches.  `bandNewOrders` records the two spendable balances passed to
`bands.new_orders`. -/
inductive Event where
  | queryEthBalance : Event
  | queryOrders : Event
  | queryPrice : Event
  | bandCancellable : Event
  | queryBalance : ℕ → Event
  | bandNewOrders : ℤ → ℤ → Event
  | cancelOrder : Order → Event
  | createOrder : OrderIntent → Event
deriving DecidableEq, Repr

/-- The order a cancel event acts on, if any. -/
def Event.cancelTarget : Event → Option Order
  | Event.cancelOrder o => some o
  | _ => none

/-- The intent a create event submits, if any. -/
def Event.createTarget : Event → Option OrderIntent
  | Event.createOrder i => some i
  | _ => none

/-- Whether an event is an order creation. -/
def Event.isCreate (e : Event) : Bool := e.createTarget.isSome

/-- Whether an event is an order cancellation. -/
def Event.isCancel (e : Event) : Bool := e.cancelTarget.isSome

/-- Whether an event consults the band strategy. -/
def Event.isBandQuery : Event → Bool
  | Event.bandCancellable => true
  | Event.bandNewOrders _ _ => true
  | _ => false

/-- `our_orders`: the raw maker orders filtered down to ours-and-live.
The source keeps an order when `order.expiration > current_timestamp -
order_expiry_threshold` and then when
`get_unavailable_buy_amount(order) < order.buy_amount`. -/
def our_orders (cfg : Config) (inp : TickInput) : List Order :=
  ((inp.ourRawOrders.filter
      (fun o => decide (o.expiration > inp.now - cfg.orderExpiryThreshold))).filter
    (fun o => decide (inp.unavailableBuyAmount o < o.buyAmount)))

/-- `our_sell_orders`: live orders whose buy token is the configured buy
token and whose pay token is the configured sell token. -/
def our_sell_orders (cfg : Config) (orders : List Order) : List Order :=
  orders.filter (fun o => o.buyToken == cfg.buyToken && o.payToken == cfg.sellToken)

/-- `our_buy_orders`: live orders whose buy token is the configured sell
token and whose pay token is the configured buy token. -/
def our_buy_orders (cfg : Config) (orders : List Order) : List Order :=
  orders.filter (fun o => o.buyToken == cfg.sellToken && o.payToken == cfg.buyToken)

/-- Modelled from the spec: `Bands.total_amount` (the band module
`market_maker_keeper.band` is not under src/).  Per the spec it is "the sum
of amounts already locked in that side's currently live orders"; the locked
amount of an open order is the amount it offers to pay. -/
def total_amount (orders : List Order) : ℤ :=
  (orders.map (fun o => o.payAmount)).sum

/-- The buy-side spendable balance computed at the creation step:
`our_total_balance(token_buy) - Bands.total_amount(our_buy_orders(our_orders))`.
No clamping is applied. -/
def our_buy_balance (cfg : Config) (inp : TickInput) : ℤ :=
  inp.balanceOf cfg.buyToken - total_amount (our_buy_orders cfg (our_orders cfg inp))

/-- The sell-side spendable balance computed at the creation step:
`our_total_balance(token_sell) - Bands.total_amount(our_sell_orders(our_orders))`.
No clamping is applied. -/
def our_sell_balance (cfg : Config) (inp : TickInput) : ℤ :=
  inp.balanceOf cfg.sellToken - total_amount (our_sell_orders cfg (our_orders cfg inp))

/-- `synchronize_orders`, one tick, as its event trace.  Control flow of
the source: ETH-balance safety stop (cancel all and return); fetch orders
and price; cancel all and return when the price is unavailable; ask the
bands for cancellable orders and, when non-empty, cancel exactly those and
return; otherwise compute the two spendable balances (total balance minus
the amount locked in that side's orders) and place exactly the first
component of `bands.new_orders`. -/
def synchronize_orders (cfg : Config) (inp : TickInput) : List Event :=
  if inp.ethBalance < cfg.minEthBalance then
    Event.queryEthBalance :: Event.queryOrders ::
      (our_orders cfg inp).map Event.cancelOrder
  else
    let orders := our_orders cfg inp
    match inp.targetPrice with
    | none =>
        Event.queryEthBalance :: Event.queryOrders :: Event.queryPrice ::
          orders.map Event.cancelOrder
    | some target_price =>
        let buys := our_buy_orders cfg orders
        let sells := our_sell_orders cfg orders
        let cancellable_orders := inp.cancellable buys sells target_price
        if cancellable_orders.length > 0 then
          Event.queryEthBalance :: Event.queryOrders :: Event.queryPrice ::
            Event.bandCancellable :: cancellable_orders.map Event.cancelOrder
        else
          Event.queryEthBalance :: Event.queryOrders :: Event.queryPrice ::
            Event.bandCancellable ::
            Event.queryBalance cfg.buyToken :: Event.queryBalance cfg.sellToken ::
            Event.bandNewOrders (our_buy_balance cfg inp) (our_sell_balance cfg inp) ::
            (inp.newOrders buys sells (our_buy_balance cfg inp) (our_sell_balance cfg inp)
                target_price).1.map Event.createOrder

/-- A 0x order as built by `zrx_exchange.create_order`: pay/buy tokens and
amounts plus the expiration computed by the creation dispatcher. -/
structure ZrxOrder where
  payToken : ℕ
  payAmount : ℤ
  buyToken : ℕ
  buyAmount : ℤ
  expiration : ℤ
deriving DecidableEq, Repr

/-- The exchange gateway operations used by `create_orders`:
`calculate_fees` (relayer API), `sign_order` (0x exchange) and
`submit_order` (relayer API).  Each may fail (`none`), modelling a raised
exception. -/
structure Gateway where
  calculateFees : ZrxOrder → Option ZrxOrder
  signOrder : ZrxOrder → Option ZrxOrder
  submitOrder : ZrxOrder → Option Unit

/-- Observable steps of the creation dispatcher, per intent and in
execution order. -/
inductive CreateEvent where
  | created : ZrxOrder → CreateEvent
  | feesCalculated : ZrxOrder → CreateEvent
  | signed : ZrxOrder → CreateEvent
  | submitted : ZrxOrder → CreateEvent
deriving DecidableEq, Repr

/-- The unsigned order built by `zrx_exchange.create_order` inside the
creation loop: pay token is the sell token for a sell intent and the buy
token otherwise, buy token the other way round, and
expiration `time.time() + order_expiry`. -/
def builtOrder (cfg : Config) (now : ℤ) (intent : OrderIntent) : ZrxOrder :=
  { payToken := if intent.is_sell then cfg.sellToken else cfg.buyToken,
    payAmount := intent.pay_amount,
    buyToken := if intent.is_sell then cfg.buyToken else cfg.sellToken,
    buyAmount := intent.buy_amount,
    expiration := now + cfg.orderExpiry }

/-- One iteration of the `create_orders` loop: build the order with
expiration `time.time() + order_expiry`, calculate fees, sign, submit.
Returns the steps performed and whether the iteration completed without
failure. -/
def create_one (cfg : Config) (gw : Gateway) (now : ℤ) (intent : OrderIntent) :
    List CreateEvent × Bool :=
  match gw.calculateFees (builtOrder cfg now intent) with
  | none => ([CreateEvent.created (builtOrder cfg now intent)], false)
  | some withFees =>
      match gw.signOrder withFees with
      | none =>
          ([CreateEvent.created (builtOrder cfg now intent),
            CreateEvent.feesCalculated withFees], false)
      | some signedOrder =>
          match gw.submitOrder signedOrder with
          | none =>
              ([CreateEvent.created (builtOrder cfg now intent),
                CreateEvent.feesCalculated withFees,
                CreateEvent.signed signedOrder], false)
          | some _ =>
              ([CreateEvent.created (builtOrder cfg now intent),
                CreateEvent.feesCalculated withFees,
                CreateEvent.signed signedOrder, CreateEvent.submitted signedOrder], true)

/-- `create_orders`: the sequential creation loop.  Intents are processed
in the order given; a failure (a raised exception in the source) aborts the
loop, so later intents produce no steps. -/
def create_orders (cfg : Config) (gw : Gateway) (now : ℤ) :
    List OrderIntent → List CreateEvent
  | [] => []
  | intent :: rest =>
      let step := create_one cfg gw now intent
      if step.2 then step.1 ++ create_orders cfg gw now rest else step.1

/-- The fixed delay of the `retry` decorator on `shutdown`
(`@retry(delay=5, ...)`). -/
def shutdownRetryDelay : ℕ := 5

/-- The external world as seen by successive shutdown attempts: the live
orders `our_orders()` returns at the k-th attempt, and whether the k-th
`cancel_orders` attempt succeeds. -/
structure ShutdownEnv where
  liveOrders : ℕ → List Order
  succeeds : ℕ → Bool

/-- Observable events of the shutdown action: an attempt to cancel every
currently live order, a fixed-delay wait after a failure, and successful
termination. -/
inductive ShutdownEvent where
  | attemptCancelAll : List Order → ShutdownEvent
  | waitDelay : ℕ → ShutdownEvent
  | done : ShutdownEvent
deriving DecidableEq, Repr

/-- Modelled from the spec: the `retry` decorator wrapping `shutdown`
(the decorator body lives in the external `retry` package; the source
applies it as `@retry(delay=5, logger=logger)`, i.e. unbounded tries with a
fixed 5-second delay).  Each attempt runs `cancel_orders(self.our_orders())`;
on failure it waits the fixed delay and retries.  `fuel` bounds how far the
unbounded process is observed; within the first `fuel` attempts the trace
ends with `done` exactly when some attempt succeeds. -/
def shutdownTraceAux (env : ShutdownEnv) (k : ℕ) : ℕ → List ShutdownEvent
  | 0 => []
  | fuel + 1 =>
      ShutdownEvent.attemptCancelAll (env.liveOrders k) ::
        match env.succeeds k with
        | true => [ShutdownEvent.done]
        | false => ShutdownEvent.waitDelay shutdownRetryDelay :: shutdownTraceAux env (k + 1) fuel

/-- The shutdown action observed for its first `fuel` attempts. -/
def shutdownTrace (env : ShutdownEnv) (fuel : ℕ) : List ShutdownEvent :=
  shutdownTraceAux env 0 fuel

/-! Concrete fixtures used to instantiate the theorems below. -/

/-- A concrete configuration: buy token 1, sell token 2, minimum ETH
balance 10, staleness threshold 7, order lifetime 30. -/
def cfgW : Config :=
  { buyToken := 1, sellToken := 2, minEthBalance := 10,
    orderExpiryThreshold := 7, orderExpiry := 30 }

/-- A live sell-side order of the configured pair. -/
def ordSell : Order :=
  { payToken := 2, payAmount := 5, buyToken := 1, buyAmount := 6, expiration := 100 }

/-- A live buy-side order of the configured pair. -/
def ordBuy : Order :=
  { payToken := 1, payAmount := 4, buyToken := 2, buyAmount := 3, expiration := 100 }

/-- A live order whose token pair matches neither configured direction. -/
def ordAlien : Order :=
  { payToken := 9, payAmount := 4, buyToken := 8, buyAmount := 3, expiration := 100 }

/-- An order whose expiration (47) lies between `now - threshold` (43) and
`now + threshold` (57) for `now = 50`, `threshold = 7`. -/
def ordStale : Order :=
  { payToken := 2, payAmount := 5, buyToken := 1, buyAmount := 6, expiration := 47 }

/-- A concrete new-order intent. -/
def intentW : OrderIntent := { is_sell := true, pay_amount := 3, buy_amount := 7 }

/-- A second concrete new-order intent. -/
def intentW2 : OrderIntent := { is_sell := false, pay_amount := 2, buy_amount := 9 }

/-- A tick input with the ETH balance (0) below the configured minimum. -/
def inpLow : TickInput :=
  { ethBalance := 0, ourRawOrders := [ordSell, ordBuy, ordAlien], now := 50,
    unavailableBuyAmount := fun _ => 0, targetPrice := some 100,
    balanceOf := fun _ => 1000, cancellable := fun _ _ _ => [],
    newOrders := fun _ _ _ _ _ => ([intentW], 0) }

/-- A tick input with sufficient ETH balance but no price available. -/
def inpNoPrice : TickInput :=
  { ethBalance := 20, ourRawOrders := [ordSell, ordBuy], now := 50,
    unavailableBuyAmount := fun _ => 0, targetPrice := none,
    balanceOf := fun _ => 1000, cancellable := fun _ _ _ => [],
    newOrders := fun _ _ _ _ _ => ([intentW], 0) }

/-- A tick input where the band strategy reports one cancellable order. -/
def inpCancel : TickInput :=
  { ethBalance := 20, ourRawOrders := [ordSell, ordBuy], now := 50,
    unavailableBuyAmount := fun _ => 0, targetPrice := some 100,
    balanceOf := fun _ => 1000, cancellable := fun _ _ _ => [ordBuy],
    newOrders := fun _ _ _ _ _ => ([intentW], 0) }

/-- A tick input reaching the creation step with two new intents. -/
def inpCreate : TickInput :=
  { ethBalance := 20, ourRawOrders := [ordSell, ordBuy], now := 50,
    unavailableBuyAmount := fun _ => 0, targetPrice := some 100,
    balanceOf := fun _ => 1000, cancellable := fun _ _ _ => [],
    newOrders := fun _ _ _ _ _ => ([intentW, intentW2], 0) }

/-- A tick input reaching the creation step with zero token balances, so
both spendable balances come out negative. -/
def inpNeg : TickInput :=
  { ethBalance := 20, ourRawOrders := [ordSell, ordBuy], now := 50,
    unavailableBuyAmount := fun _ => 0, targetPrice := some 100,
    balanceOf := fun _ => 0, cancellable := fun _ _ _ => [],
    newOrders := fun _ _ _ _ _ => ([intentW], 0) }

/-- A tick input whose only order is `ordStale`. -/
def inpStale : TickInput :=
  { ethBalance := 20, ourRawOrders := [ordStale], now := 50,
    unavailableBuyAmount := fun _ => 0, targetPrice := some 100,
    balanceOf := fun _ => 1000, cancellable := fun _ _ _ => [],
    newOrders := fun _ _ _ _ _ => ([], 0) }

/-- A gateway whose fee, signing and submission steps all succeed. -/
def gwW : Gateway :=
  { calculateFees := fun o => some o, signOrder := fun o => some o,
    submitOrder := fun _ => some () }

/-- A shutdown environment whose third cancel-all attempt succeeds. -/
def envW : ShutdownEnv :=
  { liveOrders := fun _ => [ordSell], succeeds := fun k => k == 2 }

/-! Helper lemmas about the tick trace. -/

lemma sync_low_eq (cfg : Config) (inp : TickInput)
    (h : inp.ethBalance < cfg.minEthBalance) :
    synchronize_orders cfg inp =
      Event.queryEthBalance :: Event.queryOrders ::
        (our_orders cfg inp).map Event.cancelOrder := by
  simp [synchronize_orders, h]

lemma sync_noprice_eq (cfg : Config) (inp : TickInput)
    (hb : ¬ inp.ethBalance < cfg.minEthBalance) (hp : inp.targetPrice = none) :
    synchronize_orders cfg inp =
      Event.queryEthBalance :: Event.queryOrders :: Event.queryPrice ::
        (our_orders cfg inp).map Event.cancelOrder := by
  simp [synchronize_orders, hb, hp]

lemma sync_cancel_eq (cfg : Config) (inp : TickInput) (p : ℤ)
    (hb : ¬ inp.ethBalance < cfg.minEthBalance) (hp : inp.targetPrice = some p)
    (hc : 0 < (inp.cancellable (our_buy_orders cfg (our_orders cfg inp))
        (our_sell_orders cfg (our_orders cfg inp)) p).length) :
    synchronize_orders cfg inp =
      Event.queryEthBalance :: Event.queryOrders :: Event.queryPrice ::
        Event.bandCancellable ::
        (inp.cancellable (our_buy_orders cfg (our_orders cfg inp))
            (our_sell_orders cfg (our_orders cfg inp)) p).map Event.cancelOrder := by
  simp [synchronize_orders, hb, hp, hc]

lemma sync_create_eq (cfg : Config) (inp : TickInput) (p : ℤ)
    (hb : ¬ inp.ethBalance < cfg.minEthBalance) (hp : inp.targetPrice = some p)
    (hc : (inp.cancellable (our_buy_orders cfg (our_orders cfg inp))
        (our_sell_orders cfg (our_orders cfg inp)) p).length = 0) :
    synchronize_orders cfg inp =
      Event.queryEthBalance :: Event.queryOrders :: Event.queryPrice ::
        Event.bandCancellable ::
        Event.queryBalance cfg.buyToken :: Event.queryBalance cfg.sellToken ::
        Event.bandNewOrders (our_buy_balance cfg inp) (our_sell_balance cfg inp) ::
        (inp.newOrders (our_buy_orders cfg (our_orders cfg inp))
            (our_sell_orders cfg (our_orders cfg inp))
            (our_buy_balance cfg inp) (our_sell_balance cfg inp) p).1.map
          Event.createOrder := by
  simp [synchronize_orders, hb, hp, hc]

lemma filterMap_cancelTarget_map_cancel (l : List Order) :
    (l.map Event.cancelOrder).filterMap Event.cancelTarget = l := by
  induction l with
  | nil => rfl
  | cons a t ih => simp [List.filterMap_cons, Event.cancelTarget, ih]

lemma filterMap_createTarget_map_create (l : List OrderIntent) :
    (l.map Event.createOrder).filterMap Event.createTarget = l := by
  induction l with
  | nil => rfl
  | cons a t ih => simp [List.filterMap_cons, Event.createTarget, ih]

/-- C1: whenever the account's ETH balance is strictly below the configured
minimum, the tick cancels every live order, performs no order creation,
consults neither the price oracle nor the band strategy, and returns —
for every input, hence regardless of price availability or band output. -/
theorem claim_C1 (cfg : Config) (inp : TickInput)
    (h : inp.ethBalance < cfg.minEthBalance) :
    synchronize_orders cfg inp =
      Event.queryEthBalance :: Event.queryOrders ::
        (our_orders cfg inp).map Event.cancelOrder
    ∧ (∀ o ∈ our_orders cfg inp, Event.cancelOrder o ∈ synchronize_orders cfg inp)
    ∧ (∀ e ∈ synchronize_orders cfg inp, e.isCreate = false)
    ∧ Event.queryPrice ∉ synchronize_orders cfg inp
    ∧ (∀ e ∈ synchronize_orders cfg inp, e.isBandQuery = false) := by
  have htr := sync_low_eq cfg inp h
  refine ⟨htr, ?_, ?_, ?_, ?_⟩
  · intro o ho
    rw [htr]
    exact List.mem_cons_of_mem _ (List.mem_cons_of_mem _ (List.mem_map_of_mem _ ho))
  · intro e he
    rw [htr] at he
    simp only [List.mem_cons, List.mem_map] at he
    rcases he with rfl | rfl | ⟨o, _, rfl⟩ <;> rfl
  · rw [htr]
    simp
  · intro e he
    rw [htr] at he
    simp only [List.mem_cons, List.mem_map] at he
    rcases he with rfl | rfl | ⟨o, _, rfl⟩ <;> rfl

/-- C1 witness: a tick with ETH balance 0 below the minimum 10. -/
theorem claim_C1_witness :
    inpLow.ethBalance < cfgW.minEthBalance
    ∧ (synchronize_orders cfgW inpLow =
          Event.queryEthBalance :: Event.queryOrders ::
            (our_orders cfgW inpLow).map Event.cancelOrder
        ∧ (∀ o ∈ our_orders cfgW inpLow,
            Event.cancelOrder o ∈ synchronize_orders cfgW inpLow)
        ∧ (∀ e ∈ synchronize_orders cfgW inpLow, e.isCreate = false)
        ∧ Event.queryPrice ∉ synchronize_orders cfgW inpLow
        ∧ (∀ e ∈ synchronize_orders cfgW inpLow, e.isBandQuery = false)) :=
  ⟨by decide, claim_C1 cfgW inpLow (by decide)⟩

/-- C3: when the ETH balance is at or above the minimum and the price feed
reports no price, the tick cancels every live order and returns with no
creation — the same cancel-all, no-create action as the balance stop. -/
theorem claim_C3 (cfg : Config) (inp : TickInput)
    (hb : ¬ inp.ethBalance < cfg.minEthBalance) (hp : inp.targetPrice = none) :
    synchronize_orders cfg inp =
      Event.queryEthBalance :: Event.queryOrders :: Event.queryPrice ::
        (our_orders cfg inp).map Event.cancelOrder
    ∧ (∀ o ∈ our_orders cfg inp, Event.cancelOrder o ∈ synchronize_orders cfg inp)
    ∧ (∀ e ∈ synchronize_orders cfg inp, e.isCreate = false)
    ∧ (synchronize_orders cfg inp).filterMap Event.cancelTarget = our_orders cfg inp := by
  have htr := sync_noprice_eq cfg inp hb hp
  refine ⟨htr, ?_, ?_, ?_⟩
  · intro o ho
    rw [htr]
    exact List.mem_cons_of_mem _ (List.mem_cons_of_mem _
      (List.mem_cons_of_mem _ (List.mem_map_of_mem _ ho)))
  · intro e he
    rw [htr] at he
    simp only [List.mem_cons, List.mem_map] at he
    rcases he with rfl | rfl | rfl | ⟨o, _, rfl⟩ <;> rfl
  · rw [htr]
    simp only [List.filterMap_cons, Event.cancelTarget]
    exact filterMap_cancelTarget_map_cancel _

/-- C3 witness: sufficient balance, unavailable price, two live orders. -/
theorem claim_C3_witness :
    (¬ inpNoPrice.ethBalance < cfgW.minEthBalance)
    ∧ inpNoPrice.targetPrice = none
    ∧ (synchronize_orders cfgW inpNoPrice =
          Event.queryEthBalance :: Event.queryOrders :: Event.queryPrice ::
            (our_orders cfgW inpNoPrice).map Event.cancelOrder
        ∧ (∀ o ∈ our_orders cfgW inpNoPrice,
            Event.cancelOrder o ∈ synchronize_orders cfgW inpNoPrice)
        ∧ (∀ e ∈ synchronize_orders cfgW inpNoPrice, e.isCreate = false)
        ∧ (synchronize_orders cfgW inpNoPrice).filterMap Event.cancelTarget =
            our_orders cfgW inpNoPrice) :=
  ⟨by decide, rfl, claim_C3 cfgW inpNoPrice (by decide) rfl⟩

/-- C2: when the band strategy's cancellable-orders query returns a
non-empty set, the tick cancels exactly that set and returns; no order is
created in the same tick. -/
theorem claim_C2 (cfg : Config) (inp : TickInput) (p : ℤ)
    (hb : ¬ inp.ethBalance < cfg.minEthBalance) (hp : inp.targetPrice = some p)
    (hc : 0 < (inp.cancellable (our_buy_orders cfg (our_orders cfg inp))
        (our_sell_orders cfg (our_orders cfg inp)) p).length) :
    (synchronize_orders cfg inp).filterMap Event.cancelTarget =
        inp.cancellable (our_buy_orders cfg (our_orders cfg inp))
          (our_sell_orders cfg (our_orders cfg inp)) p
    ∧ (∀ e ∈ synchronize_orders cfg inp, e.isCreate = false) := by
  have htr := sync_cancel_eq cfg inp p hb hp hc
  constructor
  · rw [htr]
    simp only [List.filterMap_cons, Event.cancelTarget]
    exact filterMap_cancelTarget_map_cancel _
  · intro e he
    rw [htr] at he
    simp only [List.mem_cons, List.mem_map] at he
    rcases he with rfl | rfl | rfl | rfl | ⟨o, _, rfl⟩ <;> rfl

/-- C2 witness: the band strategy reports one cancellable order. -/
theorem claim_C2_witness :
    (¬ inpCancel.ethBalance < cfgW.minEthBalance)
    ∧ inpCancel.targetPrice = some 100
    ∧ 0 < (inpCancel.cancellable (our_buy_orders cfgW (our_orders cfgW inpCancel))
        (our_sell_orders cfgW (our_orders cfgW inpCancel)) 100).length
    ∧ ((synchronize_orders cfgW inpCancel).filterMap Event.cancelTarget =
          inpCancel.cancellable (our_buy_orders cfgW (our_orders cfgW inpCancel))
            (our_sell_orders cfgW (our_orders cfgW inpCancel)) 100
        ∧ (∀ e ∈ synchronize_orders cfgW inpCancel, e.isCreate = false)) :=
  ⟨by decide, rfl, by decide, claim_C2 cfgW inpCancel 100 (by decide) rfl (by decide)⟩

/-- C5: a tick that reaches the creation step submits exactly the first
component of the band strategy's `new_orders` result — every returned
intent and nothing else — and cancels nothing. -/
theorem claim_C5 (cfg : Config) (inp : TickInput) (p : ℤ)
    (hb : ¬ inp.ethBalance < cfg.minEthBalance) (hp : inp.targetPrice = some p)
    (hc : (inp.cancellable (our_buy_orders cfg (our_orders cfg inp))
        (our_sell_orders cfg (our_orders cfg inp)) p).length = 0) :
    (synchronize_orders cfg inp).filterMap Event.createTarget =
        (inp.newOrders (our_buy_orders cfg (our_orders cfg inp))
          (our_sell_orders cfg (our_orders cfg inp))
          (our_buy_balance cfg inp) (our_sell_balance cfg inp) p).1
    ∧ (∀ e ∈ synchronize_orders cfg inp, e.isCancel = false) := by
  have htr := sync_create_eq cfg inp p hb hp hc
  constructor
  · rw [htr]
    simp only [List.filterMap_cons, Event.createTarget]
    exact filterMap_createTarget_map_create _
  · intro e he
    rw [htr] at he
    simp only [List.mem_cons, List.mem_map] at he
    rcases he with rfl | rfl | rfl | rfl | rfl | rfl | rfl | ⟨i, _, rfl⟩ <;> rfl

/-- C5 witness: a creation tick whose band strategy returns two intents. -/
theorem claim_C5_witness :
    (¬ inpCreate.ethBalance < cfgW.minEthBalance)
    ∧ inpCreate.targetPrice = some 100
    ∧ (inpCreate.cancellable (our_buy_orders cfgW (our_orders cfgW inpCreate))
        (our_sell_orders cfgW (our_orders cfgW inpCreate)) 100).length = 0
    ∧ ((synchronize_orders cfgW inpCreate).filterMap Event.createTarget =
          (inpCreate.newOrders (our_buy_orders cfgW (our_orders cfgW inpCreate))
            (our_sell_orders cfgW (our_orders cfgW inpCreate))
            (our_buy_balance cfgW inpCreate) (our_sell_balance cfgW inpCreate) 100).1
        ∧ (∀ e ∈ synchronize_orders cfgW inpCreate, e.isCancel = false)) :=
  ⟨by decide, rfl, rfl, claim_C5 cfgW inpCreate 100 (by decide) rfl rfl⟩

/-- C6: at the creation step the spendable balance passed to the band
strategy for each side equals the total account balance of that side's
token minus the sum of amounts locked in that side's live orders, buy and
sell sides independently; the recorded `bandNewOrders` arguments are
exactly these two values. -/
theorem claim_C6 (cfg : Config) (inp : TickInput) (p : ℤ)
    (hb : ¬ inp.ethBalance < cfg.minEthBalance) (hp : inp.targetPrice = some p)
    (hc : (inp.cancellable (our_buy_orders cfg (our_orders cfg inp))
        (our_sell_orders cfg (our_orders cfg inp)) p).length = 0) :
    Event.bandNewOrders (our_buy_balance cfg inp) (our_sell_balance cfg inp) ∈
        synchronize_orders cfg inp
    ∧ (∀ b s : ℤ, Event.bandNewOrders b s ∈ synchronize_orders cfg inp →
        b = inp.balanceOf cfg.buyToken -
              total_amount (our_buy_orders cfg (our_orders cfg inp)) ∧
        s = inp.balanceOf cfg.sellToken -
              total_amount (our_sell_orders cfg (our_orders cfg inp))) := by
  have htr := sync_create_eq cfg inp p hb hp hc
  constructor
  · rw [htr]
    exact List.mem_cons_of_mem _ (List.mem_cons_of_mem _ (List.mem_cons_of_mem _
      (List.mem_cons_of_mem _ (List.mem_cons_of_mem _ (List.mem_cons_of_mem _
        (List.mem_cons_self _ _))))))
  · intro b s hmem
    rw [htr] at hmem
    simp only [List.mem_cons, List.mem_map] at hmem
    have hkey : b = our_buy_balance cfg inp ∧ s = our_sell_balance cfg inp := by
      rcases hmem with h1 | h1 | h1 | h1 | h1 | h1 | h1 | ⟨i, _, h1⟩
      · cases h1
      · cases h1
      · cases h1
      · cases h1
      · cases h1
      · cases h1
      · injection h1 with hbv hsv
        exact ⟨hbv, hsv⟩
      · cases h1
    exact ⟨hkey.1, hkey.2⟩

/-- C6 witness: the creation tick fixture, with totals 1000 and locked
amounts 4 (buy side) and 5 (sell side). -/
theorem claim_C6_witness :
    (¬ inpCreate.ethBalance < cfgW.minEthBalance)
    ∧ inpCreate.targetPrice = some 100
    ∧ (inpCreate.cancellable (our_buy_orders cfgW (our_orders cfgW inpCreate))
        (our_sell_orders cfgW (our_orders cfgW inpCreate)) 100).length = 0
    ∧ (Event.bandNewOrders (our_buy_balance cfgW inpCreate)
          (our_sell_balance cfgW inpCreate) ∈ synchronize_orders cfgW inpCreate
        ∧ (∀ b s : ℤ, Event.bandNewOrders b s ∈ synchronize_orders cfgW inpCreate →
            b = inpCreate.balanceOf cfgW.buyToken -
                  total_amount (our_buy_orders cfgW (our_orders cfgW inpCreate)) ∧
            s = inpCreate.balanceOf cfgW.sellToken -
                  total_amount (our_sell_orders cfgW (our_orders cfgW inpCreate)))) :=
  ⟨by decide, rfl, rfl, claim_C6 cfgW inpCreate 100 (by decide) rfl rfl⟩

/-- C10: the per-side spendable balance is not clamped at zero — when the
amount locked in a side's live orders exceeds that side's total balance,
the tick still reaches the creation step, passes the resulting negative
value to `new_orders` unchanged, and submits the returned intents. -/
theorem claim_C10 (cfg : Config) (inp : TickInput) (p : ℤ)
    (hb : ¬ inp.ethBalance < cfg.minEthBalance) (hp : inp.targetPrice = some p)
    (hc : (inp.cancellable (our_buy_orders cfg (our_orders cfg inp))
        (our_sell_orders cfg (our_orders cfg inp)) p).length = 0) :
    Event.bandNewOrders (our_buy_balance cfg inp) (our_sell_balance cfg inp) ∈
        synchronize_orders cfg inp
    ∧ (inp.balanceOf cfg.buyToken <
          total_amount (our_buy_orders cfg (our_orders cfg inp)) →
        our_buy_balance cfg inp < 0)
    ∧ (inp.balanceOf cfg.sellToken <
          total_amount (our_sell_orders cfg (our_orders cfg inp)) →
        our_sell_balance cfg inp < 0)
    ∧ (synchronize_orders cfg inp).filterMap Event.createTarget =
        (inp.newOrders (our_buy_orders cfg (our_orders cfg inp))
          (our_sell_orders cfg (our_orders cfg inp))
          (our_buy_balance cfg inp) (our_sell_balance cfg inp) p).1 := by
  have htr := sync_create_eq cfg inp p hb hp hc
  refine ⟨?_, ?_, ?_, ?_⟩
  · rw [htr]
    exact List.mem_cons_of_mem _ (List.mem_cons_of_mem _ (List.mem_cons_of_mem _
      (List.mem_cons_of_mem _ (List.mem_cons_of_mem _ (List.mem_cons_of_mem _
        (List.mem_cons_self _ _))))))
  · intro hlt
    exact sub_neg.mpr hlt
  · intro hlt
    exact sub_neg.mpr hlt
  · rw [htr]
    simp only [List.filterMap_cons, Event.createTarget]
    exact filterMap_createTarget_map_create _

/-- C10 witness: zero token balances against locked amounts 4 and 5, so
both spendable balances are negative (-4 and -5) and creation proceeds. -/
theorem claim_C10_witness :
    (¬ inpNeg.ethBalance < cfgW.minEthBalance)
    ∧ inpNeg.targetPrice = some 100
    ∧ (inpNeg.cancellable (our_buy_orders cfgW (our_orders cfgW inpNeg))
        (our_sell_orders cfgW (our_orders cfgW inpNeg)) 100).length = 0
    ∧ inpNeg.balanceOf cfgW.buyToken <
        total_amount (our_buy_orders cfgW (our_orders cfgW inpNeg))
    ∧ (Event.bandNewOrders (our_buy_balance cfgW inpNeg) (our_sell_balance cfgW inpNeg) ∈
          synchronize_orders cfgW inpNeg
        ∧ (inpNeg.balanceOf cfgW.buyToken <
              total_amount (our_buy_orders cfgW (our_orders cfgW inpNeg)) →
            our_buy_balance cfgW inpNeg < 0)
        ∧ (inpNeg.balanceOf cfgW.sellToken <
              total_amount (our_sell_orders cfgW (our_orders cfgW inpNeg)) →
            our_sell_balance cfgW inpNeg < 0)
        ∧ (synchronize_orders cfgW inpNeg).filterMap Event.createTarget =
            (inpNeg.newOrders (our_buy_orders cfgW (our_orders cfgW inpNeg))
              (our_sell_orders cfgW (our_orders cfgW inpNeg))
              (our_buy_balance cfgW inpNeg) (our_sell_balance cfgW inpNeg) 100).1) :=
  ⟨by decide, rfl, rfl, by decide, claim_C10 cfgW inpNeg 100 (by decide) rfl rfl⟩

/-- C4 counterexample: with staleness threshold 7 and current time 50, the
order expiring at 47 is classified as ours-and-live by `our_orders`
although its expiration is not beyond `now + threshold = 57`, refuting the
claim's "current time plus the configured expiry-threshold". -/
theorem claim_C4_counterexample :
    ¬ ∀ o ∈ our_orders cfgW inpStale,
        o.expiration > inpStale.now + cfgW.orderExpiryThreshold ∧
          inpStale.unavailableBuyAmount o < o.buyAmount := by
  decide

/-- C4 (amended): `our_orders` classifies an order as ours-and-live only if
it came from the order source, its expiration is beyond the current time
MINUS the configured expiry-threshold, and its remaining fillable amount is
greater than zero (unavailable buy amount below the order's buy amount). -/
theorem claim_C4 (cfg : Config) (inp : TickInput) (o : Order)
    (h : o ∈ our_orders cfg inp) :
    o ∈ inp.ourRawOrders
    ∧ o.expiration > inp.now - cfg.orderExpiryThreshold
    ∧ inp.unavailableBuyAmount o < o.buyAmount := by
  unfold our_orders at h
  rw [List.mem_filter] at h
  rcases h with ⟨h1, h2⟩
  rw [List.mem_filter] at h1
  rcases h1 with ⟨hraw, hexp⟩
  exact ⟨hraw, of_decide_eq_true hexp, of_decide_eq_true h2⟩

/-- C4 witness: the order expiring at 47 is live at time 50 with
threshold 7 and satisfies the amended conditions. -/
theorem claim_C4_witness :
    ordStale ∈ our_orders cfgW inpStale
    ∧ (ordStale ∈ inpStale.ourRawOrders
        ∧ ordStale.expiration > inpStale.now - cfgW.orderExpiryThreshold
        ∧ inpStale.unavailableBuyAmount ordStale < ordStale.buyAmount) :=
  ⟨by decide, claim_C4 cfgW inpStale ordStale (by decide)⟩

/-- C7 counterexample: the order with foreign token pair (9, 8) is in
neither side set, yet a balance-safety-stop tick cancels it, refuting
"never acted upon by any tick of synchronize_orders". -/
theorem claim_C7_counterexample :
    ordAlien ∉ our_buy_orders cfgW (our_orders cfgW inpLow)
    ∧ ordAlien ∉ our_sell_orders cfgW (our_orders cfgW inpLow)
    ∧ Event.cancelOrder ordAlien ∈ synchronize_orders cfgW inpLow := by
  decide

/-- C7 (amended): an order whose token pair matches neither configured
direction is excluded from the buy-order set and from the sell-order set
(hence from every band-strategy call, which only receive those two sets);
in a tick that reaches the band path (balance at or above minimum, price
available) with a cancellable set drawn from the two side sets, it is not
cancelled.  Cancel-all ticks (balance below minimum or price unavailable)
do cancel it along with every other live order. -/
theorem claim_C7 (cfg : Config) (inp : TickInput) (o : Order) (p : ℤ)
    (hbuy : (o.buyToken == cfg.sellToken && o.payToken == cfg.buyToken) = false)
    (hsell : (o.buyToken == cfg.buyToken && o.payToken == cfg.sellToken) = false)
    (hb : ¬ inp.ethBalance < cfg.minEthBalance) (hp : inp.targetPrice = some p)
    (hsub : ∀ x ∈ inp.cancellable (our_buy_orders cfg (our_orders cfg inp))
        (our_sell_orders cfg (our_orders cfg inp)) p,
        x ∈ our_buy_orders cfg (our_orders cfg inp) ∨
          x ∈ our_sell_orders cfg (our_orders cfg inp)) :
    (∀ orders : List Order,
        o ∉ our_buy_orders cfg orders ∧ o ∉ our_sell_orders cfg orders)
    ∧ Event.cancelOrder o ∉ synchronize_orders cfg inp := by
  have hnotside : ∀ orders : List Order,
      o ∉ our_buy_orders cfg orders ∧ o ∉ our_sell_orders cfg orders := by
    intro orders
    constructor
    · intro hmem
      rw [our_buy_orders, List.mem_filter] at hmem
      rw [hbuy] at hmem
      exact Bool.false_ne_true hmem.2
    · intro hmem
      rw [our_sell_orders, List.mem_filter] at hmem
      rw [hsell] at hmem
      exact Bool.false_ne_true hmem.2
  refine ⟨hnotside, ?_⟩
  by_cases hlen : 0 < (inp.cancellable (our_buy_orders cfg (our_orders cfg inp))
      (our_sell_orders cfg (our_orders cfg inp)) p).length
  · have htr := sync_cancel_eq cfg inp p hb hp hlen
    rw [htr]
    intro hmem
    simp only [List.mem_cons, List.mem_map] at hmem
    rcases hmem with h1 | h1 | h1 | h1 | ⟨x, hx, hxe⟩
    · cases h1
    · cases h1
    · cases h1
    · cases h1
    · injection hxe with hxo
      subst hxo
      rcases hsub x hx with hside | hside
      · exact (hnotside (our_orders cfg inp)).1 hside
      · exact (hnotside (our_orders cfg inp)).2 hside
  · have hzero : (inp.cancellable (our_buy_orders cfg (our_orders cfg inp))
        (our_sell_orders cfg (our_orders cfg inp)) p).length = 0 :=
      Nat.eq_zero_of_not_pos hlen
    have htr := sync_create_eq cfg inp p hb hp hzero
    rw [htr]
    intro hmem
    simp only [List.mem_cons, List.mem_map] at hmem
    rcases hmem with h1 | h1 | h1 | h1 | h1 | h1 | h1 | ⟨i, _, h1⟩ <;> cases h1

/-- C7 witness: the foreign-pair order in a band-path tick whose
cancellable set is the singleton buy-side order. -/
theorem claim_C7_witness :
    (ordAlien.buyToken == cfgW.sellToken && ordAlien.payToken == cfgW.buyToken) = false
    ∧ (ordAlien.buyToken == cfgW.buyToken && ordAlien.payToken == cfgW.sellToken) = false
    ∧ (¬ inpCancel.ethBalance < cfgW.minEthBalance)
    ∧ inpCancel.targetPrice = some 100
    ∧ (∀ x ∈ inpCancel.cancellable (our_buy_orders cfgW (our_orders cfgW inpCancel))
        (our_sell_orders cfgW (our_orders cfgW inpCancel)) 100,
        x ∈ our_buy_orders cfgW (our_orders cfgW inpCancel) ∨
          x ∈ our_sell_orders cfgW (our_orders cfgW inpCancel))
    ∧ ((∀ orders : List Order,
          ordAlien ∉ our_buy_orders cfgW orders ∧ ordAlien ∉ our_sell_orders cfgW orders)
        ∧ Event.cancelOrder ordAlien ∉ synchronize_orders cfgW inpCancel) :=
  ⟨by decide, by decide, by decide, rfl, by decide,
    claim_C7 cfgW inpCancel ordAlien 100 (by decide) (by decide) (by decide) rfl (by decide)⟩

/-- C8: the creation dispatcher processes intents strictly sequentially in
the order given — a prefix that completes lets the rest run, a failure in
it drops every later intent — and any submitted order was first built with
expiration `tick time + order lifetime`, then fee-calculated, then signed,
then submitted, in that order. -/
theorem claim_C8 (cfg : Config) (gw : Gateway) (now : ℤ) :
    (∀ xs ys : List OrderIntent,
        create_orders cfg gw now (xs ++ ys) =
          create_orders cfg gw now xs ++
            (if xs.all (fun i => (create_one cfg gw now i).2) = true
              then create_orders cfg gw now ys else []))
    ∧ (∀ intent : OrderIntent, ∀ o : ZrxOrder,
        CreateEvent.submitted o ∈ (create_one cfg gw now intent).1 →
          ∃ o1 o2 : ZrxOrder,
            (create_one cfg gw now intent).1 =
              [CreateEvent.created o1, CreateEvent.feesCalculated o2,
                CreateEvent.signed o, CreateEvent.submitted o]
            ∧ o1 = builtOrder cfg now intent
            ∧ o1.expiration = now + cfg.orderExpiry
            ∧ gw.calculateFees o1 = some o2
            ∧ gw.signOrder o2 = some o
            ∧ gw.submitOrder o = some ()) := by
  have hcons : ∀ (a : OrderIntent) (l : List OrderIntent),
      create_orders cfg gw now (a :: l) =
        if (create_one cfg gw now a).2 = true
          then (create_one cfg gw now a).1 ++ create_orders cfg gw now l
          else (create_one cfg gw now a).1 := by
    intro a l
    rfl
  constructor
  · intro xs ys
    induction xs with
    | nil => simp [create_orders]
    | cons a t ih =>
      rw [List.cons_append, hcons, hcons, List.all_cons]
      cases ha : (create_one cfg gw now a).2 with
      | false => simp [ih]
      | true => simp [ih, List.append_assoc]
  · intro intent o hmem
    unfold create_one at hmem ⊢
    cases hfe : gw.calculateFees (builtOrder cfg now intent) with
    | none => rw [hfe] at hmem; simp at hmem
    | some withFees =>
      rw [hfe] at hmem
      dsimp only at hmem ⊢
      cases hsg : gw.signOrder withFees with
      | none => rw [hsg] at hmem; simp at hmem
      | some signedOrder =>
        rw [hsg] at hmem
        dsimp only at hmem ⊢
        cases hsm : gw.submitOrder signedOrder with
        | none => rw [hsm] at hmem; simp at hmem
        | some u =>
          rw [hsm] at hmem
          dsimp only at hmem ⊢
          simp only [List.mem_cons, List.not_mem_nil, or_false] at hmem
          rcases hmem with h1 | h1 | h1 | h1
          · cases h1
          · cases h1
          · cases h1
          · injection h1 with ho
            subst ho
            exact ⟨builtOrder cfg now intent, withFees,
              rfl, rfl, rfl, hfe, hsg, by rw [hsm]⟩

/-- C8 witness: an all-succeeding gateway; splitting a two-intent list at
the front and the per-intent step chain of the first intent. -/
theorem claim_C8_witness :
    create_orders cfgW gwW 0 ([intentW] ++ [intentW2]) =
        create_orders cfgW gwW 0 [intentW] ++
          (if [intentW].all (fun i => (create_one cfgW gwW 0 i).2) = true
            then create_orders cfgW gwW 0 [intentW2] else [])
    ∧ CreateEvent.submitted (builtOrder cfgW 0 intentW) ∈ (create_one cfgW gwW 0 intentW).1
    ∧ (∃ o1 o2 : ZrxOrder,
        (create_one cfgW gwW 0 intentW).1 =
          [CreateEvent.created o1, CreateEvent.feesCalculated o2,
            CreateEvent.signed (builtOrder cfgW 0 intentW),
            CreateEvent.submitted (builtOrder cfgW 0 intentW)]
        ∧ o1 = builtOrder cfgW 0 intentW
        ∧ o1.expiration = 0 + cfgW.orderExpiry
        ∧ gwW.calculateFees o1 = some o2
        ∧ gwW.signOrder o2 = some (builtOrder cfgW 0 intentW)
        ∧ gwW.submitOrder (builtOrder cfgW 0 intentW) = some ()) :=
  ⟨(claim_C8 cfgW gwW 0).1 [intentW] [intentW2], by decide,
    (claim_C8 cfgW gwW 0).2 intentW (builtOrder cfgW 0 intentW) (by decide)⟩

lemma shutdownTraceAux_done_iff (env : ShutdownEnv) :
    ∀ fuel k : ℕ, (ShutdownEvent.done ∈ shutdownTraceAux env k fuel ↔
      ∃ j < fuel, env.succeeds (k + j) = true) := by
  intro fuel
  induction fuel with
  | zero => intro k; simp [shutdownTraceAux]
  | succ n ih =>
    intro k
    rw [shutdownTraceAux]
    cases hs : env.succeeds k with
    | true =>
      constructor
      · intro _
        exact ⟨0, Nat.succ_pos n, by simpa using hs⟩
      · intro _
        simp
    | false =>
      rw [List.mem_cons, List.mem_cons, ih (k + 1)]
      constructor
      · rintro (h1 | h1 | ⟨j, hj, hsj⟩)
        · cases h1
        · cases h1
        · refine ⟨j + 1, by omega, ?_⟩
          have harith : k + (j + 1) = k + 1 + j := by omega
          rw [harith]
          exact hsj
      · rintro ⟨j, hj, hsj⟩
        cases j with
        | zero =>
          rw [Nat.add_zero, hs] at hsj
          cases hsj
        | succ m =>
          refine Or.inr (Or.inr ⟨m, by omega, ?_⟩)
          have harith : k + 1 + m = k + (m + 1) := by omega
          rw [harith]
          exact hsj

lemma shutdownTraceAux_attempt (env : ShutdownEnv) :
    ∀ fuel k : ℕ, ∀ os : List Order,
      ShutdownEvent.attemptCancelAll os ∈ shutdownTraceAux env k fuel →
        ∃ j, os = env.liveOrders (k + j) := by
  intro fuel
  induction fuel with
  | zero => intro k os h; simp [shutdownTraceAux] at h
  | succ n ih =>
    intro k os h
    rw [shutdownTraceAux] at h
    cases hs : env.succeeds k with
    | true =>
      rw [hs] at h
      simp at h
      exact ⟨0, by simpa using h⟩
    | false =>
      rw [hs] at h
      simp at h
      rcases h with h1 | h1
      · exact ⟨0, by simpa using h1⟩
      · rcases ih (k + 1) os h1 with ⟨j, hj⟩
        refine ⟨j + 1, ?_⟩
        have harith : k + (j + 1) = k + 1 + j := by omega
        rw [harith]
        exact hj

lemma shutdownTraceAux_wait (env : ShutdownEnv) :
    ∀ fuel k : ℕ, ∀ d : ℕ,
      ShutdownEvent.waitDelay d ∈ shutdownTraceAux env k fuel →
        d = shutdownRetryDelay := by
  intro fuel
  induction fuel with
  | zero => intro k d h; simp [shutdownTraceAux] at h
  | succ n ih =>
    intro k d h
    rw [shutdownTraceAux] at h
    cases hs : env.succeeds k with
    | true =>
      rw [hs] at h
      simp at h
    | false =>
      rw [hs] at h
      simp at h
      rcases h with h1 | h1
      · exact h1
      · exact ih (k + 1) d h1

lemma shutdownTraceAux_retries (env : ShutdownEnv) :
    ∀ fuel k j : ℕ, j < fuel → (∀ i ≤ j, env.succeeds (k + i) = false) →
      ShutdownEvent.attemptCancelAll (env.liveOrders (k + j)) ∈
        shutdownTraceAux env k fuel := by
  intro fuel
  induction fuel with
  | zero => intro k j hj _; omega
  | succ n ih =>
    intro k j hj hfail
    rw [shutdownTraceAux]
    have hk : env.succeeds k = false := by
      have h0 := hfail 0 (Nat.zero_le j)
      simpa using h0
    rw [hk]
    cases j with
    | zero =>
      rw [Nat.add_zero]
      exact List.mem_cons_self _ _
    | succ m =>
      refine List.mem_cons_of_mem _ (List.mem_cons_of_mem _ ?_)
      have harith : k + (m + 1) = k + 1 + m := by omega
      rw [harith]
      refine ih (k + 1) m (by omega) ?_
      intro i hi
      have h1 := hfail (i + 1) (by omega)
      have harith2 : k + 1 + i = k + (i + 1) := by omega
      rw [harith2]
      exact h1

/-- C9: the shutdown action attempts to cancel every currently live order,
retries with the fixed 5-second delay on every failure, keeps retrying as
long as attempts fail, and terminates exactly when some cancel-all attempt
has succeeded — so it never terminates with the cancel-all unperformed. -/
theorem claim_C9 (env : ShutdownEnv) (fuel : ℕ) :
    (ShutdownEvent.done ∈ shutdownTrace env fuel ↔
        ∃ j < fuel, env.succeeds j = true)
    ∧ (∀ os : List Order,
        ShutdownEvent.attemptCancelAll os ∈ shutdownTrace env fuel →
          ∃ k, os = env.liveOrders k)
    ∧ (∀ d : ℕ, ShutdownEvent.waitDelay d ∈ shutdownTrace env fuel →
        d = shutdownRetryDelay)
    ∧ (∀ j < fuel, (∀ i ≤ j, env.succeeds i = false) →
        ShutdownEvent.attemptCancelAll (env.liveOrders j) ∈ shutdownTrace env fuel) := by
  refine ⟨?_, ?_, ?_, ?_⟩
  · have h := shutdownTraceAux_done_iff env fuel 0
    simpa [shutdownTrace] using h
  · intro os hmem
    have h := shutdownTraceAux_attempt env fuel 0 os hmem
    simpa using h
  · intro d hmem
    exact shutdownTraceAux_wait env fuel 0 d hmem
  · intro j hj hfail
    have h := shutdownTraceAux_retries env fuel 0 j hj (by simpa using hfail)
    simpa using h

/-- C9 witness: an environment whose third attempt succeeds, observed for
five attempts; the second attempt still cancels all live orders, and the
trace terminates. -/
theorem claim_C9_witness :
    (1 < 5 ∧ (∀ i ≤ 1, envW.succeeds i = false))
    ∧ ShutdownEvent.attemptCancelAll (envW.liveOrders 1) ∈ shutdownTrace envW 5
    ∧ (ShutdownEvent.done ∈ shutdownTrace envW 5 ↔ ∃ j < 5, envW.succeeds j = true) :=
  ⟨⟨by decide, by decide⟩,
    (claim_C9 envW 5).2.2.2 1 (by decide) (by decide),
    (claim_C9 envW 5).1⟩
